import Mathlib

/-!
Verification development for the `md_to_svelte` static-site content pipeline
(`src/main.rs`). The Rust source is embedded shallowly: pure string
transformations become Lean functions over `String` / `List Char`, the
regex-based post-processing steps become explicit scanners with the same
leftmost, non-overlapping, lazy/greedy match semantics as the fixed patterns
in the source, and the filesystem-facing control flow of `main` /
`process_content` becomes explicit state passing over an environment that
records which I/O operations succeed. Rust panics become `Option.none` /
`Except.error`.
-/

namespace MdToSvelte

/-! ## Generic string-scanning helpers

The Rust source uses `regex::Regex::replace_all` with fixed patterns and
`str::replace` / `str::starts_with`. These helpers give the shared
mechanics: locating the first occurrence of a literal substring, testing
for occurrences, and replacing all occurrences of a literal. -/

/-- Split a character list at the first occurrence of the literal pattern
`p`: `splitAtSub p cs = some (b, a)` iff `cs = b ++ p ++ a` and `p` occurs
nowhere earlier. Mirrors a lazy regex scan for a literal. -/
def splitAtSub (p : List Char) : List Char → Option (List Char × List Char)
  | [] => if p.isEmpty then some ([], []) else none
  | c :: rest =>
    if p.isPrefixOf (c :: rest) then some ([], (c :: rest).drop p.length)
    else
      match splitAtSub p rest with
      | some (b, a) => some (c :: b, a)
      | none => none

/-- Whether the literal pattern `p` occurs as a contiguous substring of `cs`. -/
def hasSub (p : List Char) : List Char → Bool
  | [] => p.isEmpty
  | c :: rest => p.isPrefixOf (c :: rest) || hasSub p rest

/-- Replace every (leftmost, non-overlapping) occurrence of the literal
pattern `p` by `r`, as Rust's `str::replace` does. Fuel-driven recursion;
`fuel` at least the length of the input is always enough. -/
def replaceSubAux (p r : List Char) : Nat → List Char → List Char
  | 0, cs => cs
  | _ + 1, [] => []
  | fuel + 1, c :: rest =>
    if p.isPrefixOf (c :: rest) ∧ ¬p.isEmpty then
      r ++ replaceSubAux p r fuel ((c :: rest).drop p.length)
    else c :: replaceSubAux p r fuel rest

/-- Model of Rust `str::replace` for string arguments. -/
def strReplace (s pat rep : String) : String :=
  ⟨replaceSubAux pat.data rep.data (s.data.length + 1) s.data⟩

/-- Model of Rust `str::starts_with` for string arguments. -/
def starts_with (s pat : String) : Bool :=
  pat.data.isPrefixOf s.data

/-! ## Data model (`Author`, `FrontMatter`)

The Rust structs, with the serde attributes reflected in the decoder
below: `slug` and `authors` carry `#[serde(default)]`, `url` is
`Option<String>`. -/

/-- The `Author` struct: a name and an optional URL. -/
structure Author where
  name : String
  url : Option String
deriving Repr, DecidableEq

/-- The `FrontMatter` struct: `slug` defaults to `""`, `authors` defaults to
`[]`, and `title`, `date`, `tags` are required by the derived
deserializer. -/
structure FrontMatter where
  slug : String
  title : String
  authors : List Author
  date : String
  tags : List String
deriving Repr, DecidableEq

/-- A YAML value as far as the front-matter decoder observes one: a scalar
string, a sequence, or a mapping with string keys. -/
inductive Yaml where
  | str (s : String)
  | seq (xs : List Yaml)
  | map (entries : List (String × Yaml))

/-- A scalar string, or `none` (a shape error) otherwise. -/
def Yaml.asStr : Yaml → Option String
  | .str s => some s
  | _ => none

/-- A sequence of scalar strings, or `none` (a shape error) otherwise. -/
def Yaml.asStrList : Yaml → Option (List String)
  | .seq xs => xs.mapM Yaml.asStr
  | _ => none

/-- Deserialization of one `authors` entry into `Author`: `name` is a
required string field, `url` is optional (absent means `none`). -/
def Author.fromYaml : Yaml → Option Author
  | .map es =>
    match es.lookup "name" with
    | some (.str n) =>
      match es.lookup "url" with
      | none => some ⟨n, none⟩
      | some (.str u) => some ⟨n, some u⟩
      | some _ => none
    | _ => none
  | _ => none

/-- Deserialization of a YAML document into `FrontMatter`, following the
derived serde implementation: `title`, `date`, `tags` are required (missing
key or wrong shape is an error, i.e. `none`), `slug` defaults to `""`,
`authors` defaults to `[]`. -/
def FrontMatter.fromYaml : Yaml → Option FrontMatter
  | .map es => do
    let slug ←
      match es.lookup "slug" with
      | none => some ""
      | some y => y.asStr
    let title ← (es.lookup "title").bind Yaml.asStr
    let authors ←
      match es.lookup "authors" with
      | none => some []
      | some (.seq xs) => xs.mapM Author.fromYaml
      | some _ => none
    let date ← (es.lookup "date").bind Yaml.asStr
    let tags ← (es.lookup "tags").bind Yaml.asStrList
    some ⟨slug, title, authors, date, tags⟩
  | _ => none

/-! ## Front-matter splitter (`extract_frontmatter`)

The source matches the anchored regex `(?s)^---\n(.*?)\n---\n(.*)$` and
calls `.unwrap()` on the captures: the input must start with the line
`---`, the metadata block is the (lazy, hence first-terminated) text up to
the first later `\n---\n`, and everything after that is the body. A
failed match or a failed YAML decode panics, modelled by `none`. -/

/-- The regex split of `extract_frontmatter`: `some (block, body)` when the
input is `"---\n" ++ block ++ "\n---\n" ++ body` with the closing
delimiter located at its first possible position, `none` (panic)
otherwise. -/
def splitFrontmatter (content : String) : Option (String × String) :=
  if ("---\n".data).isPrefixOf content.data then
    match splitAtSub ("\n---\n".data) (content.data.drop 4) with
    | some (block, body) => some (⟨block⟩, ⟨body⟩)
    | none => none
  else none

/-- The whole of `extract_frontmatter`: regex split, then YAML decode of the
block (the `serde_yaml::from_str` library call is the parameter
`decode`), then `FrontMatter.fromYaml`. Any failure is a panic (`none`). -/
def extract_frontmatter (decode : String → Option Yaml) (content : String) :
    Option (FrontMatter × String) :=
  match splitFrontmatter content with
  | none => none
  | some (block, body) =>
    match (decode block).bind FrontMatter.fromYaml with
    | none => none
    | some fm => some (fm, body)

/-! ## Post-processing rewriter chain (`markdown_to_html`, lines 126-161)

After the library renders Markdown to HTML, the source applies four
`replace_all` passes in a fixed order:

1. `<p>\$\$([\s\S]*?)\$\$</p>` → `\[…\]` (block math);
2. `\$([^\$\n]+?)\$` → `\(…\)` (inline math);
3. `(<[ou]l>(?:\s*<li>.*?</li>\s*)+</[ou]l>)` → wrapped in a margin `div`;
4. `<pre><code>([\s\S]*?)</code></pre>` → re-tagged with a language class.

Each pass is embedded as a left-to-right scanner producing the same
leftmost, non-overlapping matches, with the same lazy (`*?`) and greedy
(`\s*`, `+`) backtracking priorities as the regex engine. -/

/-- Pass 1: rewrite paragraph-wrapped `$$…$$` blocks to `\[…\]`. The inner
capture is lazy, so the block ends at the first `$$</p>`. -/
def blockMathAux : Nat → List Char → List Char
  | 0, cs => cs
  | _ + 1, [] => []
  | fuel + 1, c :: rest =>
    if ("<p>$$".data).isPrefixOf (c :: rest) then
      match splitAtSub ("$$</p>".data) ((c :: rest).drop 5) with
      | some (content, after) =>
        "\\[".data ++ content ++ "\\]".data ++ blockMathAux fuel after
      | none => c :: blockMathAux fuel rest
    else c :: blockMathAux fuel rest

/-- Pass 2: rewrite `$…$` inline spans to `\(…\)`. The content must be
nonempty and may contain neither `$` nor a newline, so the only candidate
closer for a `$` at position `i` is the very next `$`. -/
def inlineMathAux : Nat → List Char → List Char
  | 0, cs => cs
  | _ + 1, [] => []
  | fuel + 1, c :: rest =>
    if c = '$' then
      match splitAtSub ['$'] rest with
      | some (content, after) =>
        if content.isEmpty || content.contains '\n' then
          c :: inlineMathAux fuel rest
        else "\\(".data ++ content ++ "\\)".data ++ inlineMathAux fuel after
      | none => c :: inlineMathAux fuel rest
    else c :: inlineMathAux fuel rest

/-- The regex character class `\s`. -/
def isWs (c : Char) : Bool :=
  c = ' ' || c = '\t' || c = '\n' || c = '\r' || c = '\x0b' || c = '\x0c'

/-- Candidate splits for `.*?</li>` in lazy priority order: each candidate
is (content, text after the `</li>`), the content contains no newline
(`.` does not match `\n`), shortest content first. -/
def liContentCandidates : Nat → List Char → List (List Char × List Char)
  | 0, _ => []
  | fuel + 1, cs =>
    let hd := if ("</li>".data).isPrefixOf cs then [(([] : List Char), cs.drop 5)] else []
    match cs with
    | [] => hd
    | c :: rest =>
      hd ++ (if c = '\n' then []
             else (liContentCandidates fuel rest).map fun p => (c :: p.1, p.2))

/-- Candidate parses of one list item `\s*<li>.*?</li>\s*`, in the regex
priority order: the two `\s*` are forced (the following literal starts
with `<`, which is not whitespace), the item content is lazy. Each
candidate is (consumed text, rest). -/
def itemCandidates (fuel : Nat) (cs : List Char) : List (List Char × List Char) :=
  let w1 := cs.takeWhile isWs
  let cs1 := cs.dropWhile isWs
  if ("<li>".data).isPrefixOf cs1 then
    (liContentCandidates fuel (cs1.drop 4)).map fun p =>
      (w1 ++ "<li>".data ++ p.1 ++ "</li>".data ++ p.2.takeWhile isWs,
       p.2.dropWhile isWs)
  else []

/-- The closing `</[ou]l>` literal. -/
def closeListTag (cs : List Char) : Option (List Char × List Char) :=
  if ("</ul>".data).isPrefixOf cs then some ("</ul>".data, cs.drop 5)
  else if ("</ol>".data).isPrefixOf cs then some ("</ol>".data, cs.drop 5)
  else none

/-- Backtracking parse of `(?:\s*<li>.*?</li>\s*)*</[ou]l>`: the greedy `+`
prefers consuming another item over closing, and on failure later
candidates (longer lazy contents, fewer items) are tried. -/
def itemsThenClose : Nat → List Char → Option (List Char × List Char)
  | 0, _ => none
  | fuel + 1, cs =>
    match (itemCandidates fuel cs).findSome? (fun p =>
        (itemsThenClose fuel p.2).map fun q => (p.1 ++ q.1, q.2)) with
    | some res => some res
    | none => closeListTag cs

/-- Match of the whole list-block pattern at the head of `cs`: an opening
`<ul>`/`<ol>`, at least one item, then a closing `</ul>`/`</ol>`. Returns
(matched text, rest). -/
def matchListBlock (fuel : Nat) (cs : List Char) : Option (List Char × List Char) :=
  if ("<ul>".data).isPrefixOf cs || ("<ol>".data).isPrefixOf cs then
    (itemCandidates fuel (cs.drop 4)).findSome? fun p =>
      (itemsThenClose fuel p.2).map fun q => (cs.take 4 ++ p.1 ++ q.1, q.2)
  else none

/-- The replacement wrapper of pass 3. -/
def listDivOpen : String := "<div style=\"margin-left: 2em;\">"

/-- Pass 3: wrap each matched list block in a left-margin `div`. -/
def listWrapAux : Nat → List Char → List Char
  | 0, cs => cs
  | _ + 1, [] => []
  | fuel + 1, c :: rest =>
    match matchListBlock (rest.length + 1) (c :: rest) with
    | some (matched, after) =>
      listDivOpen.data ++ matched ++ "</div>".data ++ listWrapAux fuel after
    | none => c :: listWrapAux fuel rest

/-- The language classifier of pass 4: the first matching prefix of the
code block's text wins, tried in the order `python`, `vhdl`, `cpp`, `c`;
anything else is `none`. -/
def codeLanguage (code : String) : String :=
  if starts_with code "python" then "language-python"
  else if starts_with code "vhdl" then "language-vhdl"
  else if starts_with code "cpp" then "language-cpp"
  else if starts_with code "c" then "language-c"
  else "language-none"

/-- The replacement of pass 4: the `pre`/`code` pair re-tagged with the
detected language class, the code text kept verbatim. -/
def codeBlockReplacement (code : String) : String :=
  "<pre class=\"code-block\"><code class=\"" ++ codeLanguage code ++ "\">" ++
    code ++ "</code></pre>"

/-- Pass 4: rewrite every `<pre><code>…</code></pre>` block (lazy content,
ending at the first `</code></pre>`) through `codeBlockReplacement`. -/
def codeBlockAux : Nat → List Char → List Char
  | 0, cs => cs
  | _ + 1, [] => []
  | fuel + 1, c :: rest =>
    if ("<pre><code>".data).isPrefixOf (c :: rest) then
      match splitAtSub ("</code></pre>".data) ((c :: rest).drop 11) with
      | some (content, after) =>
        (codeBlockReplacement ⟨content⟩).data ++ codeBlockAux fuel after
      | none => c :: codeBlockAux fuel rest
    else c :: codeBlockAux fuel rest

/-- Pass 1 on strings. -/
def blockMathRewrite (s : String) : String := ⟨blockMathAux (s.data.length + 1) s.data⟩

/-- Pass 2 on strings. -/
def inlineMathRewrite (s : String) : String := ⟨inlineMathAux (s.data.length + 1) s.data⟩

/-- Pass 3 on strings. -/
def listWrapRewrite (s : String) : String := ⟨listWrapAux (s.data.length + 1) s.data⟩

/-- Pass 4 on strings. -/
def codeBlockRewrite (s : String) : String := ⟨codeBlockAux (s.data.length + 1) s.data⟩

/-- The post-processing rewriter chain of `markdown_to_html`: the four
passes in source order (block math, inline math, list wrapping, code-block
classification). -/
def rewriterChain (s : String) : String :=
  codeBlockRewrite (listWrapRewrite (inlineMathRewrite (blockMathRewrite s)))

/-- The whole of `markdown_to_html`: the pulldown-cmark renderer is a
library call, taken as the parameter `render`; the source then applies the
rewriter chain to its output. -/
def markdown_to_html (render : String → String) (markdown : String) : String :=
  rewriterChain (render markdown)

/-! ## Date parsing and formatting (`generate_svelte_component`, lines 197-198)

The source parses `frontmatter.date` with chrono's `%Y-%m-%d` (panicking
on failure) and re-formats it with `%B %d, %Y`: full month name, day
zero-padded to two digits, year zero-padded to four. The chrono library
calls are modelled on proleptic-Gregorian calendar arithmetic. -/

/-- Gregorian leap-year rule. -/
def isLeapYear (y : Nat) : Bool :=
  (y % 4 == 0 && y % 100 != 0) || y % 400 == 0

/-- Days in a month of the Gregorian calendar. -/
def daysInMonth (y m : Nat) : Nat :=
  if m = 2 then (if isLeapYear y then 29 else 28)
  else if m = 4 ∨ m = 6 ∨ m = 9 ∨ m = 11 then 30
  else 31

/-- Whether `y-m-d` is a real calendar date. -/
def validYmd (y m d : Nat) : Bool :=
  decide (1 ≤ m) && decide (m ≤ 12) && decide (1 ≤ d) && decide (d ≤ daysInMonth y m)

/-- Split a character list at every occurrence of the separator. -/
def splitOnChar (sep : Char) : List Char → List (List Char)
  | [] => [[]]
  | c :: rest =>
    match splitOnChar sep rest with
    | [] => if c = sep then [[], []] else [[c]]
    | r :: rs => if c = sep then [] :: r :: rs else (c :: r) :: rs

/-- The numeric value of a digit string. -/
def digitsToNat (cs : List Char) : Nat :=
  cs.foldl (fun n c => n * 10 + (c.toNat - 48)) 0

/-- Model of chrono date parsing with the format `%Y-%m-%d`: a four-digit
year, one- or two-digit month and day separated by `-`, validated as a
real calendar date; `none` models the panic of the `.unwrap()`. -/
def parseDateYMD (s : String) : Option (Nat × Nat × Nat) :=
  match splitOnChar '-' s.data with
  | [ys, ms, ds] =>
    if ys.length == 4 && ys.all Char.isDigit
        && (ms.length == 1 || ms.length == 2) && ms.all Char.isDigit
        && (ds.length == 1 || ds.length == 2) && ds.all Char.isDigit then
      let y := digitsToNat ys
      let m := digitsToNat ms
      let d := digitsToNat ds
      if validYmd y m d then some (y, m, d) else none
    else none
  | _ => none

/-- The `%B` month names. -/
def monthName : Nat → String
  | 1 => "January"
  | 2 => "February"
  | 3 => "March"
  | 4 => "April"
  | 5 => "May"
  | 6 => "June"
  | 7 => "July"
  | 8 => "August"
  | 9 => "September"
  | 10 => "October"
  | 11 => "November"
  | 12 => "December"
  | _ => ""

/-- Zero-padding to two digits (`%d`). -/
def pad2 (n : Nat) : String :=
  if n < 10 then "0" ++ toString n else toString n

/-- Zero-padding to four digits (`%Y`). -/
def pad4 (n : Nat) : String :=
  if n < 10 then "000" ++ toString n
  else if n < 100 then "00" ++ toString n
  else if n < 1000 then "0" ++ toString n
  else toString n

/-- Model of formatting a parsed date with `%B %d, %Y`. -/
def formatDateLong : Nat × Nat × Nat → String
  | (y, m, d) => monthName m ++ " " ++ pad2 d ++ ", " ++ pad4 y

/-! ## JSON encoding (`serde_json` calls in `generate_svelte_component`) -/

/-- JSON string escaping for one character (the cases `serde_json`
produces for the text that occurs here). -/
def jsonEscapeChar (c : Char) : String :=
  if c = '"' then "\\\"" else if c = '\\' then "\\\\"
  else if c = '\n' then "\\n" else if c = '\t' then "\\t"
  else if c = '\r' then "\\r"
  else String.singleton c

/-- JSON string escaping. -/
def jsonEscape (s : String) : String :=
  String.join (s.data.map jsonEscapeChar)

/-- A JSON string literal, quotes included. -/
def jsonString (s : String) : String :=
  "\"" ++ jsonEscape s ++ "\""

/-- Model of `serde_json::to_string` of a `Vec<String>`. -/
def jsonStringArray (xs : List String) : String :=
  "[" ++ String.intercalate "," (xs.map jsonString) ++ "]"

/-- Model of `serde_json::to_string` of one `Author` (derived `Serialize`). -/
def jsonAuthor (a : Author) : String :=
  "\x7b\"name\":" ++ jsonString a.name ++ ",\"url\":" ++
    (match a.url with
     | none => "null"
     | some u => jsonString u) ++ "\x7d"

/-- Model of `serde_json::to_string` of a `Vec<Author>`. -/
def jsonAuthors (xs : List Author) : String :=
  "[" ++ String.intercalate "," (xs.map jsonAuthor) ++ "]"

/-! ## Template renderer (`generate_svelte_component`) -/

/-- Modelled from the spec: the template embeds the contents of
`static/profile_image.svg` (pulled in at compile time in the source);
that asset file is not part of the source snapshot and no claim depends
on its contents, so it is modelled as an unspecified placeholder
constant. -/
def profile_image : String := ""
/-- Literal segment 0 of the Svelte page template: the text of the
`format!` raw string in `generate_svelte_component` between its holes. -/
def tmplSeg0 : String :=
  "<script>\n    import \x7b onMount \x7d from 'svelte';\n    import Prism from 'prismjs';\n    import "
  ++ "'prismjs/themes/prism-okaidia.css';\n    import 'prismjs/components/prism-python';\n    import 'pris"
  ++ "mjs/components/prism-vhdl';\n    import 'prismjs/components/prism-c';\n    import 'prismjs/component"
  ++ "s/prism-cpp';\n\n    export const title = '"

/-- Literal segment 1 of the Svelte page template: the text of the
`format!` raw string in `generate_svelte_component` between its holes. -/
def tmplSeg1 : String :=
  "';\n    export const date = '"

/-- Literal segment 2 of the Svelte page template: the text of the
`format!` raw string in `generate_svelte_component` between its holes. -/
def tmplSeg2 : String :=
  "';\n    export const tags = "

/-- Literal segment 3 of the Svelte page template: the text of the
`format!` raw string in `generate_svelte_component` between its holes. -/
def tmplSeg3 : String :=
  ";\n    export const authors = "

/-- Literal segment 4 of the Svelte page template: the text of the
`format!` raw string in `generate_svelte_component` between its holes. -/
def tmplSeg4 : String :=
  ";\n\n    let content = "

/-- Literal segment 5 of the Svelte page template: the text of the
`format!` raw string in `generate_svelte_component` between its holes. -/
def tmplSeg5 : String :=
  ";\n\n    onMount(() => \x7b\n      Prism.highlightAll();\n\n      window.MathJax = \x7b\n        tex"
  ++ ": \x7b\n          inlineMath: [['\\\\(', '\\\\)']],\n          displayMath: [['\\\\[', '\\\\]'], ['$"
  ++ "$', '$$']],\n          processEscapes: true,\n          processEnvironments: true\n        \x7d,\n  "
  ++ "      options: \x7b\n          skipHtmlTags: ['script', 'noscript', 'style', 'textarea', 'pre']\n   "
  ++ "     \x7d\n      \x7d;\n\n      const script = document.createElement('script');\n      script.src ="
  ++ " 'https://cdn.jsdelivr.net/npm/mathjax@3/es5/tex-chtml.js';\n      script.async = true;\n      docum"
  ++ "ent.head.appendChild(script);\n\n      script.onload = () => \x7b\n        setTimeout(() => \x7b\n  "
  ++ "        MathJax.typesetPromise().catch((err) => \x7b\n            console.error('MathJax error:', er"
  ++ "r);\n          \x7d);\n        \x7d, 100);\n      \x7d;\n    \x7d);\n  </script>\n\n  <div class=\"t"
  ++ "itle\">\n    <h1 class=\"title\">\x7btitle\x7d</h1>\n\n    <div class=\"meta\">\n      <div class=\""
  ++ "profile\" itemprop=\"author\" itemtype=\"http://schema.org/Person\" style=\"height:48px\">\n        "
  ++ "<!-- svelte-ignore a11y-img-redundant-alt -->\n        <img itemprop=\"image\" src='data:image/png;b"
  ++ "ase64,"

/-- Literal segment 6 of the Svelte page template: the text of the
`format!` raw string in `generate_svelte_component` between its holes. -/
def tmplSeg6 : String :=
  "'>\n        <span class=\"mono authors\">\n          \x7b#each authors as author, index\x7d\n       "
  ++ "     \x7b#if author.url\x7d\n              <a itemprop=\"name\" href=\"\x7bauthor.url\x7d\">\x7bauth"
  ++ "or.name\x7d</a>\n            \x7b:else\x7d\n              <span itemprop=\"name\">\x7bauthor.name"
  ++ "\x7d</span>\n            \x7b/if\x7d\n            \x7b#if index < authors.length - 1\x7d<span class="
  ++ "\"ampersand\">&amp;</span>\x7b/if\x7d\n          \x7b/each\x7d\n          <p class=\"subtitle\">\x7b"
  ++ "date\x7d</p>\n        </span>\n      </div>\n    </div>\n    <hr>\n\n    <div class=\"content\">\n  "
  ++ "    \x7b@html content\x7d\n    </div>\n  </div>\n\n  <style>\n    .authors .ampersand \x7b\n      di"
  ++ "splay: inline-block;\n      padding-right: 0.5em;\n    \x7d\n    * \x7b\n      margin: 0;\n      pad"
  ++ "ding: 0;\n      box-sizing: border-box;\n      color: inherit;\n      text-decoration: inherit;\n   "
  ++ " \x7d\n\n    html \x7b\n      background: var(--bg-0);\n      color: var(--text-0);\n      width: 10"
  ++ "0%;\n      text-rendering: optimizeLegibility;\n      font-feature-settings: \"kern\" 1;\n      font"
  ++ "-feature-settings: \"liga\" 1;\n      min-width: 100vw;\n      overflow-x: hidden;\n      -webkit-te"
  ++ "xt-size-adjust: 100%;\n    \x7d\n\n    @media all and (min-width:640px) \x7b\n      html \x7b\n     "
  ++ "   font-size: 16.5px;\n      \x7d\n    \x7d\n\n    @media all and (min-width:720px) \x7b\n      html"
  ++ " \x7b\n        font-size: 17px;\n      \x7d\n    \x7d\n\n    @media all and (min-width:960px) \x7b\n"
  ++ "      html \x7b\n        font-size: 18px;\n      \x7d\n    \x7d\n\n    body \x7b\n      background-c"
  ++ "olor: #fffdf0;\n      max-width: 944px;\n      margin: 0 auto;\n      padding: 0 24px;\n      font-f"
  ++ "amily: 'Berkeley Mono', monospace;\n    \x7d\n\n    header, h1, h2, h3, .sans \x7b\n      font-famil"
  ++ "y: 'Berkeley Mono', monospace;\n      font-size: 18px;\n    \x7d\n\n    code, .mono, summary \x7b\n "
  ++ "     font-family: 'Berkeley Mono', monospace;\n      font-weight: 500;\n    \x7d\n\n    .img-right "
  ++ "\x7b\n      float: right;\n      height: 300px;\n      padding-left: 2em;\n    \x7d\n\n    body > he"
  ++ "ader \x7b\n      display: flex;\n      justify-content: space-between;\n      align-items: center;\n"
  ++ "      margin: 2em 0;\n    \x7d\n\n    nav a \x7b\n      margin-left: 1.5em;\n      letter-spacing: 0"
  ++ ".07em;\n      font-size: .9rem;\n    \x7d\n\n    .m \x7b\n      margin-left: 11%;\n      position: r"
  ++ "elative;\n    \x7d\n\n    .r \x7b\n      text-align: end;\n    \x7d\n\n    h1 \x7b\n      font-size:"
  ++ " 6em;\n    \x7d\n\n    .red \x7b\n      color: #EF5350;\n    \x7d\n\n    article \x7b\n      margin:"
  ++ " 0 0 1rem -24px;\n      padding-left: 20px;\n      position: relative;\n      border-left: solid 4px"
  ++ ";\n    \x7d\n\n    article > a \x7b\n      letter-spacing: 0.05em;\n    \x7d\n\n    article > div "
  ++ "\x7b\n      font-size: .9rem;\n    \x7d\n\n    article > time \x7b\n      color: var(--text-1);\n   "
  ++ "   font-size: .9rem;\n      display: block;\n      margin-bottom: 4px;\n    \x7d\n\n    article > di"
  ++ "v \x7b\n      color: var(--text-1);\n    \x7d\n\n    article a \x7b\n      color: var(--text-0);\n  "
  ++ "    position: relative;\n    \x7d\n\n    article h1 \x7b\n      font-size: 2rem;\n      margin-botto"
  ++ "m: 12px;\n      font-weight: 700;\n    \x7d\n\n    @media screen and (min-width: 1248px) \x7b\n     "
  ++ " time \x7b\n        position: absolute;\n        left: 0;\n        top: 0;\n        transform: trans"
  ++ "lateX(calc(-100% - 24px));\n      \x7d\n    \x7d\n\n    @media screen and (max-width: 1248px) \x7b\n"
  ++ "      .shapes \x7b\n        display: none;\n      \x7d\n    \x7d\n\n    @media screen and (max-width"
  ++ ": 1200px) \x7b\n      .m \x7b\n        margin-left: 0;\n      \x7d\n      .r \x7b\n        text-alig"
  ++ "n: left;\n      \x7d\n\n      hgroup \x7b\n        margin-left: 0;\n        margin-right: 0;\n      "
  ++ "\x7d\n\n      h1 \x7b\n        font-size: 4em;\n        line-height: 100%;\n      \x7d\n\n      h2 "
  ++ "\x7b\n        font-size: 2em;\n        line-height: 100%;\n      \x7d\n    \x7d\n\n    body \x7b\n  "
  ++ "    font-family: 'Berkeley Mono', monospace;\n    \x7d\n\n    code, pre \x7b\n      font-family: 'Be"
  ++ "rkeley Mono', monospace;\n    \x7d\n\n    .header \x7b\n      display: flex;\n      justify-content:"
  ++ " space-between;\n      align-items: center;\n      margin-top: 2rem;\n      margin-bottom: 2rem;\n  "
  ++ "  \x7d\n\n    .header__logo \x7b\n      font-family: sans-serif;\n      font-size: 1.125rem;\n    "
  ++ "\x7d\n\n    .header__nav-link \x7b\n      margin-left: 1.5rem;\n      font-size: 0.875rem;\n      le"
  ++ "tter-spacing: 0.05em;\n      font-family: sans-serif;\n    \x7d\n\n    .main \x7b\n      max-width: "
  ++ "56rem;\n      margin-left: auto;\n      margin-right: auto;\n      padding-left: 1.5rem;\n      padd"
  ++ "ing-right: 1.5rem;\n    \x7d\n\n    h1 \x7b\n      font-size: 2rem;\n      margin-bottom: 12px;\n   "
  ++ " \x7d\n\n    .profile > img \x7b\n      display: inline;\n      object-fit: cover;\n      height: 48"
  ++ "px;\n      width: 48px;\n      border-radius: 100%;\n      margin-right: 8px;\n      background: var"
  ++ "(--bg-1);\n    \x7d\n\n    img:not(.profile img) \x7b\n      margin-top: 12px;\n      margin-bottom:"
  ++ " 12px;\n    \x7d\n\n    pre \x7b\n      margin-top: 12px;\n      margin-bottom: 12px;\n    \x7d\n\n "
  ++ "   .authors \x7b\n      position: absolute;\n      margin-top: 4px;\n      color: var(--text-1);\n  "
  ++ "    font-size: 16px;\n    \x7d\n\n    .subtitle \x7b\n      color: rgba(0, 0, 0, 66%);\n      font-s"
  ++ "ize: 16px;\n    \x7d\n\n    hr \x7b\n      width: 164px;\n      border: 2.5px solid;\n      margin-t"
  ++ "op: 12px;\n      margin-bottom: 32px;\n    \x7d\n\n    h3, h2 \x7b\n      line-height: 24px;\n    "
  ++ "\x7d\n\n    h2 \x7b\n      font-size: 1.2em;\n    \x7d\n\n    h1, h2, h3 \x7b\n      position: relat"
  ++ "ive;\n      margin: 1.2rem 0 0 2rem 0;\n      margin-bottom: 12px;\n      margin-top: 12px;\n    "
  ++ "\x7d\n\n    :not(.hgroup) h2:before \x7b\n      content: '\\#';\n      position: absolute;\n      ma"
  ++ "rgin-left: -19px;\n    \x7d\n\n    table \x7b\n      border-collapse: separate;\n      border-spacin"
  ++ "g: 10px;\n    \x7d\n\n    th, td \x7b\n      padding: 10px;\n      margin-bottom: 12px;\n    \x7d\n "
  ++ " </style>\n  "

/-- The whole of `generate_svelte_component`: parse and re-format the
date (a parse failure panics, modelled by `none`), JSON-encode tags and
authors, rewrite relative image paths to the content type's public asset
path, and interpolate everything into the fixed page template. -/
def generate_svelte_component (fm : FrontMatter) (html_content : String)
    (is_article : Bool) : Option String :=
  match parseDateYMD fm.date with
  | none => none
  | some ymd =>
    let formatted_date := formatDateLong ymd
    let tags_json := jsonStringArray fm.tags
    let authors_json := jsonAuthors fm.authors
    let image_path := if is_article then "images/articles" else "images/projects"
    let content_json := jsonString
      (strReplace html_content "src=\"images/" ("src=\"/" ++ image_path ++ "/"))
    some (tmplSeg0 ++ fm.title ++ tmplSeg1 ++ formatted_date ++ tmplSeg2 ++
      tags_json ++ tmplSeg3 ++ authors_json ++ tmplSeg4 ++ content_json ++
      tmplSeg5 ++ profile_image ++ tmplSeg6)

/-! ## Manifest writer (`generate_data`) -/

/-- The lines `generate_data` writes for one front-matter record: one
manifest entry object literal. Single quotes in titles, author names and
URLs are escaped as in the source (`replace("'", "\\'")`); the tag list
is Rust's debug rendering of a `Vec<String>`. -/
def manifestEntryText (fm : FrontMatter) : String :=
  "  \x7b\n" ++
  "    slug: '" ++ fm.slug ++ "',\n" ++
  "    title: '" ++ strReplace fm.title "'" "\\'" ++ "',\n" ++
  "    authors: [\n" ++
  String.join (fm.authors.map fun a =>
    "      \x7b name: '" ++ strReplace a.name "'" "\\'" ++ "', " ++
    (match a.url with
     | some url => "url: '" ++ strReplace url "'" "\\'" ++ "' \x7d,\n"
     | none => "url: null \x7d,\n")) ++
  "    ],\n" ++
  "    date: '" ++ fm.date ++ "',\n" ++
  "    tags: [" ++ String.intercalate ", " (fm.tags.map jsonString) ++ "]\n" ++
  "  \x7d,\n"

/-- The text `generate_data` writes: the exported list with one entry per
front-matter record, in order. -/
def generate_data_text (frontmatters : List FrontMatter) (is_article : Bool) : String :=
  let var_name := if is_article then "articles" else "projects"
  "export const " ++ var_name ++ " = [\n" ++
    String.join (frontmatters.map manifestEntryText) ++ "];\n"

/-! ## Control flow (`main` / `process_content`)

The filesystem is abstracted into an environment recording the input
files of a content type and which I/O operations succeed. A Rust panic
(`panic!` in `unwrap_or_else`, or a `.unwrap()`) aborts the whole run and
is an `Except.error`; a logged error (`eprintln!` in an `unwrap_or_else`)
is collected and the run continues. -/

/-- One file found by the directory walk: its stem (base name without
extension), its extension, and its text. -/
structure FileEntry where
  stem : String
  ext : String
  content : String

/-- The filesystem environment of one content type: the files under its
input directory and which I/O operations succeed (keyed by file stem
where per-file). -/
structure TypeEnv where
  files : List FileEntry
  readOk : String → Bool
  dirOk : String → Bool
  writeOk : String → Bool
  manifestOk : Bool
  imagesExist : Bool
  staticDirOk : Bool
  copyOk : Bool

/-- The files the `.md`-extension filter keeps. -/
def mdFiles (env : TypeEnv) : List FileEntry :=
  env.files.filter fun f => f.ext == "md"

/-- The per-file pipeline body of `process_content`: read the file,
extract and decode the front matter, overwrite `slug` with the file stem,
render and post-process the Markdown, render the page component (the date
parse may panic), create the output directory and write the page. Every
failure on this path is a panic (`Except.error`). -/
def processFile (render : String → String) (decode : String → Option Yaml)
    (env : TypeEnv) (is_article : Bool) (f : FileEntry) :
    Except String (FrontMatter × String) :=
  if !env.readOk f.stem then .error ("Error reading file " ++ f.stem)
  else
    match extract_frontmatter decode f.content with
    | none => .error ("panicked extracting front matter of " ++ f.stem)
    | some (fm0, markdown) =>
      let fm : FrontMatter := ⟨f.stem, fm0.title, fm0.authors, fm0.date, fm0.tags⟩
      let html := markdown_to_html render markdown
      match generate_svelte_component fm html is_article with
      | none => .error ("panicked parsing date of " ++ f.stem)
      | some svelte =>
        if !env.dirOk f.stem then .error ("Error creating directory for " ++ f.stem)
        else if !env.writeOk f.stem then .error ("Error writing to " ++ f.stem)
        else .ok (fm, svelte)

/-- The whole of `process_content`: the per-file pipeline over every
`.md` file, in directory order; the first panic aborts. Returns each
file's final front-matter record and the page text written for it. -/
def process_content (render : String → String) (decode : String → Option Yaml)
    (env : TypeEnv) (is_article : Bool) :
    Except String (List (FrontMatter × String)) :=
  (mdFiles env).mapM (processFile render decode env is_article)

/-- One `content_type` iteration of `main` after `process_content`:
`generate_data` and the image steps log their errors (`eprintln!`) and
the run continues; the returned list is what was logged. -/
def runContentType (render : String → String) (decode : String → Option Yaml)
    (env : TypeEnv) (is_article : Bool) : Except String (List String) :=
  match process_content render decode env is_article with
  | .error e => .error e
  | .ok _ =>
    .ok ((if env.manifestOk then [] else ["Error generating data"]) ++
      (if env.imagesExist then
        (if env.staticDirOk then [] else ["Error creating directory"]) ++
          (if env.copyOk then [] else ["Error copying images"])
       else []))

/-- The two fixed content types of `main` plus the library calls. -/
structure Env where
  render : String → String
  decode : String → Option Yaml
  articles : TypeEnv
  projects : TypeEnv

/-- How a run of the process ends: a panic (abnormal termination), or
normal completion with the list of logged, non-fatal errors. -/
inductive RunOutcome where
  | panicked (msg : String)
  | completed (loggedErrors : List String)
deriving Repr, DecidableEq

/-- The whole of `main`: both content types in order; any panic aborts
the run abnormally, everything else runs to completion. -/
def runMain (env : Env) : RunOutcome :=
  match runContentType env.render env.decode env.articles true with
  | .error e => .panicked e
  | .ok l1 =>
    match runContentType env.render env.decode env.projects false with
    | .error e => .panicked e
    | .ok l2 => .completed (l1 ++ l2)

/-! ## Auxiliary definitions used by the verification -/

/-- Whether no nonempty proper tail of `p` that starts an occurrence of `p`
can also be read as a prefix of `p`: when this holds, an occurrence of `p`
cannot straddle the boundary of text appended in front of `p`. -/
def selfOverlapFreeB (p : List Char) : Bool :=
  (List.range p.length).all fun k => k == 0 || !((p.drop k).isPrefixOf p)

/-- Rendered HTML containing block math, inline math and a code block (and
no list), as `markdown_to_html`'s renderer produces for typical input. -/
def mathCodeSample : String :=
  "<p>$$E=mc^2$$</p>\n<p>a $x$ b</p>\n<pre><code>python\nprint(1)\n</code></pre>\n"

/-- Rendered HTML of a one-item unordered list. -/
def listSample : String := "<ul>\n<li>a</li>\n</ul>\n"

/-- A content-type environment with no files and every I/O operation
succeeding. -/
def emptyTypeEnv : TypeEnv where
  files := []
  readOk := fun _ => true
  dirOk := fun _ => true
  writeOk := fun _ => true
  manifestOk := true
  imagesExist := false
  staticDirOk := true
  copyOk := true

/-- An environment in which everything succeeds except writing the
articles manifest data file. -/
def envManifestFail : Env where
  render := id
  decode := fun _ => none
  articles := { emptyTypeEnv with manifestOk := false }
  projects := emptyTypeEnv

/-- An environment in which every operation succeeds. -/
def envAllOk : Env where
  render := id
  decode := fun _ => none
  articles := emptyTypeEnv
  projects := emptyTypeEnv

/-- A decoded metadata block: `title`, `date`, `tags` present, plus a
`slug` that differs from any file stem. -/
def sampleYaml : Yaml :=
  .map [("title", .str "T"), ("slug", .str "from-frontmatter"),
        ("date", .str "2024-03-05"), ("tags", .seq [])]

/-- A content-type environment holding `a.md` and `b.md`. -/
def twoFileEnv : TypeEnv :=
  { emptyTypeEnv with
      files := [⟨"a", "md", "---\nx\n---\nbody"⟩, ⟨"b", "md", "---\nx\n---\nbody"⟩] }

/-! ## Helper lemmas about substring search -/

theorem splitAtSub_eq_append {p : List Char} :
    ∀ {cs b a : List Char}, splitAtSub p cs = some (b, a) → cs = b ++ p ++ a := by
  intro cs
  induction cs with
  | nil =>
    intro b a h
    simp only [splitAtSub] at h
    split at h
    · next hp =>
      simp only [Option.some.injEq, Prod.mk.injEq] at h
      obtain ⟨rfl, rfl⟩ := h
      simp [List.isEmpty_iff.mp hp]
    · exact absurd h (by simp)
  | cons c rest ih =>
    intro b a h
    simp only [splitAtSub] at h
    split at h
    · next hpre =>
      simp only [Option.some.injEq, Prod.mk.injEq] at h
      obtain ⟨rfl, rfl⟩ := h
      obtain ⟨t, ht⟩ := List.isPrefixOf_iff_prefix.mp hpre
      simp only [List.nil_append]
      conv_lhs => rw [← ht]
      rw [← ht, List.drop_left]
    · next hpre =>
      cases hs : splitAtSub p rest with
      | none => rw [hs] at h; exact absurd h (by simp)
      | some ba =>
        obtain ⟨b', a'⟩ := ba
        rw [hs] at h
        simp only [Option.some.injEq, Prod.mk.injEq] at h
        obtain ⟨rfl, rfl⟩ := h
        simp [ih hs]

theorem hasSub_of_isPrefixOf {p cs : List Char} (hp : p ≠ [])
    (h : p.isPrefixOf cs = true) : hasSub p cs = true := by
  cases cs with
  | nil =>
    obtain ⟨t, ht⟩ := List.isPrefixOf_iff_prefix.mp h
    cases p with
    | nil => exact absurd rfl hp
    | cons q qs => simp at ht
  | cons c rest => simp [hasSub, h]

theorem hasSub_append_mid {p : List Char} (hp : p ≠ []) :
    ∀ (A B : List Char), hasSub p (A ++ (p ++ B)) = true := by
  intro A
  induction A with
  | nil =>
    intro B
    simp only [List.nil_append]
    exact hasSub_of_isPrefixOf hp
      (List.isPrefixOf_iff_prefix.mpr (List.prefix_append p B))
  | cons c A' ih =>
    intro B
    rw [List.cons_append, hasSub, ih B]
    simp

theorem splitAtSub_isSome {p : List Char} :
    ∀ {cs : List Char}, hasSub p cs = true → (splitAtSub p cs).isSome = true := by
  intro cs
  induction cs with
  | nil =>
    intro h
    simp only [hasSub] at h
    simp [splitAtSub, h]
  | cons c rest ih =>
    intro h
    simp only [hasSub, Bool.or_eq_true] at h
    simp only [splitAtSub]
    rcases h with h | h
    · simp [h]
    · split
      · simp
      · cases hs : splitAtSub p rest with
        | none => rw [hs] at ih; exact absurd (ih h) (by simp)
        | some ba => obtain ⟨b', a'⟩ := ba; simp

theorem splitAtSub_append_first {p : List Char} (hp : p ≠ []) :
    ∀ (A B : List Char), hasSub p A = false →
      (∀ k, 0 < k → k < p.length → (p.drop k).isPrefixOf p = true →
        (p.take k).isSuffixOf A = false) →
      splitAtSub p (A ++ (p ++ B)) = some (A, B) := by
  intro A
  induction A with
  | nil =>
    intro B _ _
    cases p with
    | nil => exact absurd rfl hp
    | cons q qs =>
      have hpre : (q :: qs).isPrefixOf (q :: (qs ++ B)) = true := by
        rw [← List.cons_append]
        exact List.isPrefixOf_iff_prefix.mpr (List.prefix_append _ B)
      have hdrop : List.drop (q :: qs).length (q :: (qs ++ B)) = B := by
        rw [← List.cons_append]
        exact List.drop_left _ _
      simp only [List.nil_append, List.cons_append, splitAtSub, List.append_eq,
        hpre, if_true, hdrop]
  | cons c A' ih =>
    intro B hA hOv
    rw [hasSub] at hA
    have hA' : hasSub p A' = false := (Bool.or_eq_false_iff.mp hA).2
    have hnpre : p.isPrefixOf (c :: A') = false := (Bool.or_eq_false_iff.mp hA).1
    have hkey : p.isPrefixOf ((c :: A') ++ (p ++ B)) = false := by
      by_contra hcon
      rw [Bool.not_eq_false] at hcon
      have hpref : p <+: ((c :: A') ++ (p ++ B)) := List.isPrefixOf_iff_prefix.mp hcon
      rcases le_or_lt p.length (c :: A').length with hle | hlt
      · have h1 : p = ((c :: A') ++ (p ++ B)).take p.length :=
          List.prefix_iff_eq_take.mp hpref
        have h2 : ((c :: A') ++ (p ++ B)).take p.length = (c :: A').take p.length := by
          rw [List.take_append_eq_append_take, Nat.sub_eq_zero_of_le hle]
          simp
        have h3 : p.isPrefixOf (c :: A') = true := by
          refine List.isPrefixOf_iff_prefix.mpr ?_
          rw [h1, h2]
          exact List.take_prefix _ _
        rw [h3] at hnpre
        exact absurd hnpre (by simp)
      · have h1 : p = ((c :: A') ++ (p ++ B)).take p.length :=
          List.prefix_iff_eq_take.mp hpref
        have h2 : ((c :: A') ++ (p ++ B)).take p.length =
            (c :: A') ++ (p ++ B).take (p.length - (c :: A').length) := by
          rw [List.take_append_eq_append_take,
            List.take_of_length_le (Nat.le_of_lt hlt)]
        have h3 : (p ++ B).take (p.length - (c :: A').length) =
            p.take (p.length - (c :: A').length) := by
          rw [List.take_append_eq_append_take,
            Nat.sub_eq_zero_of_le (Nat.sub_le _ _)]
          simp
        have h4 : p = (c :: A') ++ p.take (p.length - (c :: A').length) := by
          conv_lhs => rw [h1, h2, h3]
        have htake : p.take (c :: A').length = c :: A' := by
          conv_lhs => rw [h4]
          exact List.take_left _ _
        have hdrop : p.drop (c :: A').length = p.take (p.length - (c :: A').length) := by
          conv_lhs => rw [h4]
          exact List.drop_left _ _
        have hdp : (p.drop (c :: A').length).isPrefixOf p = true := by
          rw [hdrop]
          exact List.isPrefixOf_iff_prefix.mpr (List.take_prefix _ _)
        have hfalse := hOv (c :: A').length (by simp) hlt hdp
        rw [htake] at hfalse
        have htrue : (c :: A').isSuffixOf (c :: A') = true :=
          List.isSuffixOf_iff_suffix.mpr (List.suffix_refl _)
        rw [htrue] at hfalse
        exact absurd hfalse (by simp)
    have hrest : splitAtSub p (A' ++ (p ++ B)) = some (A', B) := by
      refine ih B hA' ?_
      intro k hk1 hk2 hk3
      by_contra hcon
      rw [Bool.not_eq_false] at hcon
      have hsuf : (p.take k).isSuffixOf (c :: A') = true :=
        List.isSuffixOf_iff_suffix.mpr
          ((List.isSuffixOf_iff_suffix.mp hcon).trans (List.suffix_cons c A'))
      have := hOv k hk1 hk2 hk3
      rw [hsuf] at this
      exact absurd this (by simp)
    rw [List.cons_append] at hkey ⊢
    simp only [splitAtSub, hkey, Bool.false_eq_true, if_false, hrest]

theorem splitAtSub_append_of_overlapFree {p : List Char} (hp : p ≠ [])
    (hso : selfOverlapFreeB p = true) (A B : List Char) (hA : hasSub p A = false) :
    splitAtSub p (A ++ (p ++ B)) = some (A, B) := by
  refine splitAtSub_append_first hp A B hA ?_
  intro k hk1 hk2 hk3
  have := (List.all_eq_true.mp hso) k (List.mem_range.mpr hk2)
  simp only [Bool.or_eq_true, beq_iff_eq, Bool.not_eq_true'] at this
  rcases this with h | h
  · omega
  · rw [hk3] at h
    exact absurd h (by simp)

theorem stringMk_data (s : String) : String.mk s.data = s := by
  obtain ⟨d⟩ := s
  rfl

/-! ## Identity of the rewriter passes on trigger-free text -/

theorem blockMathAux_id :
    ∀ (fuel : Nat) (cs : List Char), hasSub ['$'] cs = false →
      blockMathAux fuel cs = cs := by
  intro fuel
  induction fuel with
  | zero => intro cs _; rfl
  | succ n ih =>
    intro cs h
    cases cs with
    | nil => rfl
    | cons c rest =>
      have h' := h
      rw [hasSub] at h'
      have h2 := (Bool.or_eq_false_iff.mp h').2
      have hnpre : ("<p>$$".data).isPrefixOf (c :: rest) = false := by
        by_contra hcon
        rw [Bool.not_eq_false] at hcon
        obtain ⟨t, ht⟩ := List.isPrefixOf_iff_prefix.mp hcon
        have hdata : "<p>$$".data = ['<', 'p', '>', '$', '$'] := rfl
        rw [hdata] at ht
        have htrig : hasSub ['$'] (c :: rest) = true := by
          rw [← ht]
          simp +decide [hasSub, List.isPrefixOf]
        rw [htrig] at h
        exact absurd h (by simp)
      simp only [blockMathAux, hnpre, Bool.false_eq_true, if_false]
      rw [ih rest h2]

theorem inlineMathAux_id :
    ∀ (fuel : Nat) (cs : List Char), hasSub ['$'] cs = false →
      inlineMathAux fuel cs = cs := by
  intro fuel
  induction fuel with
  | zero => intro cs _; rfl
  | succ n ih =>
    intro cs h
    cases cs with
    | nil => rfl
    | cons c rest =>
      rw [hasSub] at h
      have h1 := (Bool.or_eq_false_iff.mp h).1
      have h2 := (Bool.or_eq_false_iff.mp h).2
      have hc : ¬(c = '$') := by
        intro hc
        subst hc
        simp [List.isPrefixOf] at h1
      simp only [inlineMathAux, if_neg hc]
      rw [ih rest h2]

theorem matchListBlock_none {fuel : Nat} {cs : List Char}
    (hu : ("<ul>".data).isPrefixOf cs = false)
    (ho : ("<ol>".data).isPrefixOf cs = false) :
    matchListBlock fuel cs = none := by
  simp [matchListBlock, hu, ho]

theorem listWrapAux_id :
    ∀ (fuel : Nat) (cs : List Char), hasSub ("<ul>".data) cs = false →
      hasSub ("<ol>".data) cs = false → listWrapAux fuel cs = cs := by
  intro fuel
  induction fuel with
  | zero => intro cs _ _; rfl
  | succ n ih =>
    intro cs hu ho
    cases cs with
    | nil => rfl
    | cons c rest =>
      rw [hasSub] at hu ho
      simp only [listWrapAux,
        matchListBlock_none (Bool.or_eq_false_iff.mp hu).1 (Bool.or_eq_false_iff.mp ho).1]
      rw [ih rest (Bool.or_eq_false_iff.mp hu).2 (Bool.or_eq_false_iff.mp ho).2]

theorem codeBlockAux_id :
    ∀ (fuel : Nat) (cs : List Char), hasSub ("<pre><code>".data) cs = false →
      codeBlockAux fuel cs = cs := by
  intro fuel
  induction fuel with
  | zero => intro cs _; rfl
  | succ n ih =>
    intro cs h
    cases cs with
    | nil => rfl
    | cons c rest =>
      rw [hasSub] at h
      simp only [codeBlockAux, (Bool.or_eq_false_iff.mp h).1, Bool.false_eq_true, if_false]
      rw [ih rest (Bool.or_eq_false_iff.mp h).2]

/-- The rewriter chain is the identity on text without any of its trigger
patterns: no dollar sign, no untagged `<pre><code>` opening, and no
`<ul>`/`<ol>` list opening. -/
theorem rewriterChain_fixed (s : String)
    (h1 : hasSub ['$'] s.data = false)
    (h2 : hasSub ("<pre><code>".data) s.data = false)
    (h3 : hasSub ("<ul>".data) s.data = false)
    (h4 : hasSub ("<ol>".data) s.data = false) :
    rewriterChain s = s := by
  have hb : blockMathRewrite s = s := by
    rw [blockMathRewrite, blockMathAux_id _ _ h1, stringMk_data]
  have hi : inlineMathRewrite s = s := by
    rw [inlineMathRewrite, inlineMathAux_id _ _ h1, stringMk_data]
  have hl : listWrapRewrite s = s := by
    rw [listWrapRewrite, listWrapAux_id _ _ h3 h4, stringMk_data]
  have hc : codeBlockRewrite s = s := by
    rw [codeBlockRewrite, codeBlockAux_id _ _ h2, stringMk_data]
  rw [rewriterChain, hb, hi, hl, hc]

set_option maxRecDepth 20000

/-! ## Claim C1: idempotence of the rewriter chain -/

/-- C1 counterexample: the rewriter chain is not idempotent. For the
rendered one-item list, the first application wraps the `<ul>` block in a
margin `div`; the wrapped block still matches the list regex, so a second
application wraps it again, and `chain (chain h) ≠ chain h`. -/
theorem C1_chain_not_idempotent_counterexample :
    rewriterChain (rewriterChain listSample) ≠ rewriterChain listSample := by
  decide

/-- C1 (amended): a second application of the rewriter chain is a no-op on
already-processed HTML in which no trigger pattern is left — no dollar
sign (so math delimiters already replaced are not re-replaced), no bare
`<pre><code>` opening (so classified code blocks are not re-classified),
and no `<ul>`/`<ol>` list opening; in particular it is a no-op on the
processed form of typical math-and-code HTML. The unrestricted claim is
false: a processed list block still matches the list-wrapping regex and
is wrapped in a further margin `div` by each application. -/
theorem C1_chain_idempotent_amended :
    (∀ h : String, hasSub ['$'] (rewriterChain h).data = false →
      hasSub ("<pre><code>".data) (rewriterChain h).data = false →
      hasSub ("<ul>".data) (rewriterChain h).data = false →
      hasSub ("<ol>".data) (rewriterChain h).data = false →
      rewriterChain (rewriterChain h) = rewriterChain h) ∧
    rewriterChain (rewriterChain mathCodeSample) = rewriterChain mathCodeSample :=
  ⟨fun _ h1 h2 h3 h4 => rewriterChain_fixed _ h1 h2 h3 h4, by decide⟩

/-- C1 witness: the amended theorem applied at a concrete paragraph. -/
theorem C1_chain_idempotent_amended_witness :
    rewriterChain (rewriterChain "<p>hello</p>") = rewriterChain "<p>hello</p>" :=
  C1_chain_idempotent_amended.1 "<p>hello</p>" (by decide) (by decide) (by decide)
    (by decide)

/-! ## The code-block classification step (claims C3 and C8) -/

theorem codeBlockAux_nil (fuel : Nat) : codeBlockAux fuel [] = [] := by
  cases fuel <;> rfl

theorem codeLanguage_of_python {code : String}
    (h : starts_with code "python" = true) :
    codeLanguage code = "language-python" := by
  simp [codeLanguage, h]

theorem codeLanguage_of_vhdl {code : String}
    (h : starts_with code "vhdl" = true) :
    codeLanguage code = "language-vhdl" := by
  obtain ⟨t, ht⟩ := List.isPrefixOf_iff_prefix.mp h
  have hdata : code.data = 'v' :: 'h' :: 'd' :: 'l' :: t := by
    rw [← ht]; rfl
  have hpy : starts_with code "python" = false := by
    rw [starts_with, hdata]
    simp +decide [List.isPrefixOf]
  simp [codeLanguage, hpy, h]

theorem codeLanguage_of_cpp {code : String}
    (h : starts_with code "cpp" = true) :
    codeLanguage code = "language-cpp" := by
  obtain ⟨t, ht⟩ := List.isPrefixOf_iff_prefix.mp h
  have hdata : code.data = 'c' :: 'p' :: 'p' :: t := by
    rw [← ht]; rfl
  have hpy : starts_with code "python" = false := by
    rw [starts_with, hdata]
    simp +decide [List.isPrefixOf]
  have hvh : starts_with code "vhdl" = false := by
    rw [starts_with, hdata]
    simp +decide [List.isPrefixOf]
  simp [codeLanguage, hpy, hvh, h]

theorem codeLanguage_of_c {code : String}
    (h : starts_with code "c" = true) (hcpp : starts_with code "cpp" = false) :
    codeLanguage code = "language-c" := by
  obtain ⟨t, ht⟩ := List.isPrefixOf_iff_prefix.mp h
  have hdata : code.data = 'c' :: t := by
    rw [← ht]; rfl
  have hpy : starts_with code "python" = false := by
    rw [starts_with, hdata]
    simp +decide [List.isPrefixOf]
  have hvh : starts_with code "vhdl" = false := by
    rw [starts_with, hdata]
    simp +decide [List.isPrefixOf]
  simp [codeLanguage, hpy, hvh, hcpp, h]

theorem codeLanguage_of_none {code : String}
    (hpy : starts_with code "python" = false) (hvh : starts_with code "vhdl" = false)
    (hcpp : starts_with code "cpp" = false) (hc : starts_with code "c" = false) :
    codeLanguage code = "language-none" := by
  simp [codeLanguage, hpy, hvh, hcpp, hc]

/-- Pass 4 on a single code block whose content does not contain the
closing literal: the block is exactly re-tagged through
`codeBlockReplacement`, the code text kept verbatim. -/
theorem codeBlockRewrite_single (code : String)
    (h : hasSub ("</code></pre>".data) code.data = false) :
    codeBlockRewrite ("<pre><code>" ++ code ++ "</code></pre>") =
      codeBlockReplacement code := by
  have hsplit : splitAtSub ("</code></pre>".data) (code.data ++ "</code></pre>".data) =
      some (code.data, []) := by
    have := splitAtSub_append_of_overlapFree (p := "</code></pre>".data)
      (by decide) (by decide) code.data [] h
    simpa using this
  have hdata : ("<pre><code>" ++ code ++ "</code></pre>").data =
      '<' :: 'p' :: 'r' :: 'e' :: '>' :: '<' :: 'c' :: 'o' :: 'd' :: 'e' :: '>' ::
        (code.data ++ "</code></pre>".data) := by
    simp [String.data_append]
  have hpre : ("<pre><code>".data).isPrefixOf
      ('<' :: 'p' :: 'r' :: 'e' :: '>' :: '<' :: 'c' :: 'o' :: 'd' :: 'e' :: '>' ::
        (code.data ++ "</code></pre>".data)) = true := by
    simp +decide [List.isPrefixOf]
  rw [codeBlockRewrite, hdata]
  rw [codeBlockAux, hpre]
  simp only [if_true, List.drop_succ_cons, List.drop_zero, hsplit, codeBlockAux_nil,
    List.append_nil]

/-- C3: the classification step. A code block whose content does not
contain the closing literal is re-tagged in place: the output `code`
element's class is the detected language and the content — leading token
included — is kept verbatim. The detected language is `language-python`,
`language-vhdl`, `language-cpp` for contents beginning `python`, `vhdl`,
`cpp`; `language-c` for contents beginning `c` (other than `cpp`); and
`language-none` when no recognized prefix matches. -/
theorem C3_code_block_classification :
    (∀ code : String, hasSub ("</code></pre>".data) code.data = false →
      codeBlockRewrite ("<pre><code>" ++ code ++ "</code></pre>") =
        "<pre class=\"code-block\"><code class=\"" ++ codeLanguage code ++ "\">" ++
          code ++ "</code></pre>") ∧
    (∀ code : String, starts_with code "python" = true →
      codeLanguage code = "language-python") ∧
    (∀ code : String, starts_with code "vhdl" = true →
      codeLanguage code = "language-vhdl") ∧
    (∀ code : String, starts_with code "cpp" = true →
      codeLanguage code = "language-cpp") ∧
    (∀ code : String, starts_with code "c" = true → starts_with code "cpp" = false →
      codeLanguage code = "language-c") ∧
    (∀ code : String, starts_with code "python" = false →
      starts_with code "vhdl" = false → starts_with code "cpp" = false →
      starts_with code "c" = false → codeLanguage code = "language-none") :=
  ⟨fun code h => codeBlockRewrite_single code h,
   fun _ h => codeLanguage_of_python h,
   fun _ h => codeLanguage_of_vhdl h,
   fun _ h => codeLanguage_of_cpp h,
   fun _ h h2 => codeLanguage_of_c h h2,
   fun _ h1 h2 h3 h4 => codeLanguage_of_none h1 h2 h3 h4⟩

/-- C3 witness: the classification theorem applied to concrete blocks. -/
theorem C3_code_block_classification_witness :
    (hasSub ("</code></pre>".data) ("cpp x".data) = false ∧
      codeBlockRewrite ("<pre><code>" ++ "cpp x" ++ "</code></pre>") =
        "<pre class=\"code-block\"><code class=\"" ++ codeLanguage "cpp x" ++ "\">" ++
          "cpp x" ++ "</code></pre>") ∧
    (starts_with "python code" "python" = true ∧
      codeLanguage "python code" = "language-python") :=
  ⟨⟨by decide, C3_code_block_classification.1 "cpp x" (by decide)⟩,
   ⟨by decide, C3_code_block_classification.2.1 "python code" (by decide)⟩⟩

/-- C8: the prefix checks are tried in the order `python`, `vhdl`, `cpp`,
`c`: content starting with `c` but not `cpp` (such as ordinary words like
`const` or `calculate`) is classified `language-c`, never `language-none`,
and content starting with `cpp` is classified `language-cpp`, never
`language-c`. -/
theorem C8_language_prefix_order :
    (∀ code : String, starts_with code "c" = true → starts_with code "cpp" = false →
      codeLanguage code = "language-c") ∧
    (∀ code : String, starts_with code "cpp" = true →
      codeLanguage code = "language-cpp" ∧ codeLanguage code ≠ "language-c") ∧
    codeLanguage "const x = 1;" = "language-c" ∧
    codeLanguage "calculate()" = "language-c" :=
  ⟨fun _ h h2 => codeLanguage_of_c h h2,
   fun _ h => ⟨codeLanguage_of_cpp h, by rw [codeLanguage_of_cpp h]; decide⟩,
   by decide, by decide⟩

/-- C8 witness: the ordering theorem applied to concrete contents. -/
theorem C8_language_prefix_order_witness :
    (starts_with "const x" "c" = true ∧ starts_with "const x" "cpp" = false ∧
      codeLanguage "const x" = "language-c") ∧
    (starts_with "cpp code" "cpp" = true ∧ codeLanguage "cpp code" = "language-cpp") :=
  ⟨⟨by decide, by decide, C8_language_prefix_order.1 "const x" (by decide) (by decide)⟩,
   ⟨by decide, (C8_language_prefix_order.2.1 "cpp code" (by decide)).1⟩⟩

/-! ## Claims C4 and C9: the front-matter splitter -/

/-- C4 counterexample: a document whose first line is the opening
delimiter `---` and whose second line is a closing delimiter `---` — yet
the splitter fails fatally, because the regex requires the closing
delimiter to be of the form `\n---\n`, which an empty metadata block or a
closing line at end-of-file cannot supply. -/
theorem C4_splitter_counterexample :
    ("---\n---\nbody" = "---" ++ "\n" ++ "---" ++ "\n" ++ "body") ∧
    splitFrontmatter "---\n---\nbody" = none ∧
    ("---\na: b\n---" = "---" ++ "\n" ++ "a: b" ++ "\n" ++ "---") ∧
    splitFrontmatter "---\na: b\n---" = none := by
  refine ⟨by decide, by decide, by decide, by decide⟩

/-- C4 (amended): the splitter succeeds exactly on inputs of the shape
`---\n` ++ block ++ `\n---\n` ++ body — the opening line must be exactly
`---`, and the closing `---` line must be both preceded and followed by a
newline — and on success it returns the metadata block and the remaining
text; every other input fails fatally (`none`), with no partial
recovery. -/
theorem C4_splitter_amended :
    (∀ s : String, (splitFrontmatter s).isSome = true ↔
      ∃ A B : String, s = "---\n" ++ A ++ "\n---\n" ++ B) ∧
    (∀ (s A B : String), splitFrontmatter s = some (A, B) →
      s = "---\n" ++ A ++ "\n---\n" ++ B) := by
  have hsound : ∀ (s A B : String), splitFrontmatter s = some (A, B) →
      s = "---\n" ++ A ++ "\n---\n" ++ B := by
    intro s A B h
    rw [splitFrontmatter] at h
    split at h
    case isFalse => exact absurd h (by simp)
    case isTrue hpre =>
      cases hs : splitAtSub ("\n---\n".data) (s.data.drop 4) with
      | none => rw [hs] at h; exact absurd h (by simp)
      | some ba =>
        obtain ⟨bl, bo⟩ := ba
        rw [hs] at h
        simp only [Option.some.injEq, Prod.mk.injEq] at h
        obtain ⟨rfl, rfl⟩ := h
        obtain ⟨t, ht⟩ := List.isPrefixOf_iff_prefix.mp hpre
        have hdrop : s.data.drop 4 = t := by
          rw [← ht]
          have hlen : ("---\n".data).length = 4 := rfl
          rw [← hlen, List.drop_left]
        have hdataeq : s.data = "---\n".data ++ (bl ++ ("\n---\n".data ++ bo)) := by
          have h1 := splitAtSub_eq_append hs
          rw [hdrop] at h1
          rw [← ht, h1]
          simp [List.append_assoc]
        refine String.ext ?_
        rw [hdataeq]
        simp [String.data_append, List.append_assoc]
  have hcomplete : ∀ (A B : String),
      (splitFrontmatter ("---\n" ++ A ++ "\n---\n" ++ B)).isSome = true := by
    intro A B
    have hdata : ("---\n" ++ A ++ "\n---\n" ++ B).data =
        "---\n".data ++ (A.data ++ ("\n---\n".data ++ B.data)) := by
      simp [String.data_append, List.append_assoc]
    have hpre : ("---\n".data).isPrefixOf ("---\n" ++ A ++ "\n---\n" ++ B).data = true := by
      rw [hdata]
      exact List.isPrefixOf_iff_prefix.mpr (List.prefix_append _ _)
    have hdrop : ("---\n" ++ A ++ "\n---\n" ++ B).data.drop 4 =
        A.data ++ ("\n---\n".data ++ B.data) := by
      rw [hdata]
      have hlen : ("---\n".data).length = 4 := rfl
      rw [← hlen, List.drop_left]
    rw [splitFrontmatter, if_pos hpre, hdrop]
    have hsome := splitAtSub_isSome (p := "\n---\n".data)
      (hasSub_append_mid (by decide) A.data B.data)
    cases hs : splitAtSub ("\n---\n".data) (A.data ++ ("\n---\n".data ++ B.data)) with
    | none => rw [hs] at hsome; exact absurd hsome (by simp)
    | some ba =>
      obtain ⟨bl, bo⟩ := ba
      simp
  refine ⟨?_, hsound⟩
  intro s
  constructor
  · intro hsome
    cases hs : splitFrontmatter s with
    | none => rw [hs] at hsome; exact absurd hsome (by simp)
    | some ab =>
      obtain ⟨A, B⟩ := ab
      exact ⟨A, B, hsound s A B hs⟩
  · rintro ⟨A, B, rfl⟩
    exact hcomplete A B

/-- C4 witness: the amended theorem applied at a concrete document. -/
theorem C4_splitter_amended_witness :
    splitFrontmatter "---\ntitle: x\n---\nbody" = some ("title: x", "body") ∧
    "---\ntitle: x\n---\nbody" = "---\n" ++ "title: x" ++ "\n---\n" ++ "body" :=
  ⟨by decide, C4_splitter_amended.2 "---\ntitle: x\n---\nbody" "title: x" "body"
    (by decide)⟩

/-- C9: the splitter splits at the first closing delimiter. For any block
`A` containing no closing delimiter `\n---\n` (and not ending in `\n---`,
which would complete one with the closing delimiter's own newline), and
any remaining text `B` whatsoever — later `---` lines included — the
metadata block is exactly `A` and the body is exactly `B`, left
unmodified. -/
theorem C9_first_closing_delimiter :
    ∀ (A B : String), hasSub ("\n---\n".data) A.data = false →
      ("\n---".data).isSuffixOf A.data = false →
      splitFrontmatter ("---\n" ++ A ++ "\n---\n" ++ B) = some (A, B) := by
  intro A B hA hsuf
  have hdata : ("---\n" ++ A ++ "\n---\n" ++ B).data =
      "---\n".data ++ (A.data ++ ("\n---\n".data ++ B.data)) := by
    simp [String.data_append, List.append_assoc]
  have hpre : ("---\n".data).isPrefixOf ("---\n" ++ A ++ "\n---\n" ++ B).data = true := by
    rw [hdata]
    exact List.isPrefixOf_iff_prefix.mpr (List.prefix_append _ _)
  have hdrop : ("---\n" ++ A ++ "\n---\n" ++ B).data.drop 4 =
      A.data ++ ("\n---\n".data ++ B.data) := by
    rw [hdata]
    have hlen : ("---\n".data).length = 4 := rfl
    rw [← hlen, List.drop_left]
  have hsplit : splitAtSub ("\n---\n".data) (A.data ++ ("\n---\n".data ++ B.data)) =
      some (A.data, B.data) := by
    refine splitAtSub_append_first (by decide) A.data B.data hA ?_
    intro k hk1 hk2 hk3
    have hlen5 : ("\n---\n".data).length = 5 := rfl
    rw [hlen5] at hk2
    interval_cases k
    · exact absurd hk3 (by decide)
    · exact absurd hk3 (by decide)
    · exact absurd hk3 (by decide)
    · have htake : ("\n---\n".data).take 4 = "\n---".data := rfl
      rw [htake]
      exact hsuf
  rw [splitFrontmatter, if_pos hpre, hdrop, hsplit]

/-- C9 witness: the first-delimiter theorem applied at a document whose
body holds a further `---` delimiter line, which survives in the body. -/
theorem C9_first_closing_delimiter_witness :
    hasSub ("\n---\n".data) ("title: x".data) = false ∧
    ("\n---".data).isSuffixOf ("title: x".data) = false ∧
    splitFrontmatter ("---\n" ++ "title: x" ++ "\n---\n" ++ "a\n---\nb") =
      some ("title: x", "a\n---\nb") :=
  ⟨by decide, by decide,
    C9_first_closing_delimiter "title: x" "a\n---\nb" (by decide) (by decide)⟩

/-! ## Claim C5: the metadata decoder -/

/-- C5: the decoder fails fatally when any of the required keys `title`,
`date`, `tags` is missing or has the wrong shape, and on success an
absent `authors` key defaults to the empty list. -/
theorem C5_metadata_decoder :
    (∀ es : List (String × Yaml), es.lookup "title" = none →
      FrontMatter.fromYaml (.map es) = none) ∧
    (∀ es : List (String × Yaml), es.lookup "date" = none →
      FrontMatter.fromYaml (.map es) = none) ∧
    (∀ es : List (String × Yaml), es.lookup "tags" = none →
      FrontMatter.fromYaml (.map es) = none) ∧
    (∀ (es : List (String × Yaml)) (xs : List Yaml),
      es.lookup "title" = some (.seq xs) → FrontMatter.fromYaml (.map es) = none) ∧
    (∀ (es : List (String × Yaml)) (v : String),
      es.lookup "tags" = some (.str v) → FrontMatter.fromYaml (.map es) = none) ∧
    (∀ (es : List (String × Yaml)) (fm : FrontMatter), es.lookup "authors" = none →
      FrontMatter.fromYaml (.map es) = some fm → fm.authors = []) := by
  refine ⟨?_, ?_, ?_, ?_, ?_, ?_⟩
  · intro es h
    simp only [FrontMatter.fromYaml, h, Yaml.asStr, Yaml.asStrList, Option.bind_eq_bind,
      Option.none_bind, Option.bind_none]
    repeat' first
      | rfl
      | (rw [Option.bind_eq_none]; intro _ _)
      | split
  · intro es h
    simp only [FrontMatter.fromYaml, h, Yaml.asStr, Yaml.asStrList, Option.bind_eq_bind,
      Option.none_bind, Option.bind_none]
    repeat' first
      | rfl
      | (rw [Option.bind_eq_none]; intro _ _)
      | split
  · intro es h
    simp only [FrontMatter.fromYaml, h, Yaml.asStr, Yaml.asStrList, Option.bind_eq_bind,
      Option.none_bind, Option.bind_none]
    repeat' first
      | rfl
      | (rw [Option.bind_eq_none]; intro _ _)
      | split
  · intro es xs h
    simp only [FrontMatter.fromYaml, h, Yaml.asStr, Yaml.asStrList, Option.bind_eq_bind,
      Option.none_bind, Option.bind_none]
    repeat' first
      | rfl
      | (rw [Option.bind_eq_none]; intro _ _)
      | split
  · intro es v h
    simp only [FrontMatter.fromYaml, h, Yaml.asStr, Yaml.asStrList, Option.bind_eq_bind,
      Option.none_bind, Option.bind_none]
    repeat' first
      | rfl
      | (rw [Option.bind_eq_none]; intro _ _)
      | split
  · intro es fm hauth h
    rw [FrontMatter.fromYaml, hauth] at h
    cases hslug : List.lookup "slug" es with
    | none =>
      rw [hslug] at h
      simp only [Option.bind_eq_bind, Option.some_bind, Option.bind_eq_some,
        Option.some.injEq] at h
      obtain ⟨title, _, date, _, tags, _, hfm⟩ := h
      rw [← hfm]
    | some y =>
      rw [hslug] at h
      cases y with
      | str s =>
        simp only [Yaml.asStr, Option.bind_eq_bind, Option.some_bind,
          Option.bind_eq_some, Option.some.injEq] at h
        obtain ⟨title, _, date, _, tags, _, hfm⟩ := h
        rw [← hfm]
      | seq xs => simp [Yaml.asStr] at h
      | map es2 => simp [Yaml.asStr] at h

/-- C5 witness: the decoder theorem applied at concrete metadata
mappings. -/
theorem C5_metadata_decoder_witness :
    (([("date", Yaml.str "2024-03-05"), ("tags", Yaml.seq [])] :
        List (String × Yaml)).lookup "title" = none ∧
      FrontMatter.fromYaml
        (.map [("date", Yaml.str "2024-03-05"), ("tags", Yaml.seq [])]) = none) ∧
    (([("title", Yaml.str "T"), ("date", Yaml.str "2024-03-05"),
        ("tags", Yaml.seq [])] : List (String × Yaml)).lookup "authors" = none ∧
      ∀ fm : FrontMatter,
        FrontMatter.fromYaml
          (.map [("title", Yaml.str "T"), ("date", Yaml.str "2024-03-05"),
            ("tags", Yaml.seq [])]) = some fm → fm.authors = []) :=
  ⟨⟨by rfl, C5_metadata_decoder.1 _ (by rfl)⟩,
   ⟨by rfl, fun fm h => C5_metadata_decoder.2.2.2.2.2 _ fm (by rfl) h⟩⟩

/-! ## Claim C7: date formatting in the rendered page -/

/-- C7: the date `2024-03-05` parses and formats to `March 05, 2024`, and
in general every successfully parsed `y-m-d` date appears in the rendered
page output in `Month DD, YYYY` form — full month name, zero-padded
two-digit day, four-digit year. -/
theorem C7_date_format :
    (parseDateYMD "2024-03-05" = some (2024, 3, 5) ∧
      formatDateLong (2024, 3, 5) = "March 05, 2024") ∧
    (∀ (fm : FrontMatter) (html : String) (is_article : Bool) (y m d : Nat),
      parseDateYMD fm.date = some (y, m, d) →
      ∃ pre post : String, generate_svelte_component fm html is_article =
        some (pre ++ (monthName m ++ " " ++ pad2 d ++ ", " ++ pad4 y) ++ post)) := by
  constructor
  · exact ⟨by decide, by decide⟩
  · intro fm html is_article y m d h
    rw [generate_svelte_component, h]
    refine ⟨tmplSeg0 ++ fm.title ++ tmplSeg1,
      tmplSeg2 ++ jsonStringArray fm.tags ++ tmplSeg3 ++ jsonAuthors fm.authors ++
        tmplSeg4 ++ jsonString (strReplace html "src=\"images/"
          ("src=\"/" ++ (if is_article then "images/articles" else "images/projects") ++
            "/")) ++ tmplSeg5 ++ profile_image ++ tmplSeg6, ?_⟩
    simp only [formatDateLong, String.append_assoc]

/-- C7 witness: the formatting theorem applied at a concrete record whose
date is `2024-03-05`. -/
theorem C7_date_format_witness :
    parseDateYMD "2024-03-05" = some (2024, 3, 5) ∧
    (∃ pre post : String,
      generate_svelte_component ⟨"a", "T", [], "2024-03-05", []⟩ "<p>x</p>" true =
        some (pre ++ (monthName 3 ++ " " ++ pad2 5 ++ ", " ++ pad4 2024) ++ post)) :=
  ⟨by decide, C7_date_format.2 ⟨"a", "T", [], "2024-03-05", []⟩ "<p>x</p>" true
    2024 3 5 (by decide)⟩

/-! ## Helper lemmas about `mapM` over `Except` -/

theorem mapM_except_ok_iff {α β : Type} (f : α → Except String β) :
    ∀ l : List α, (∃ r, l.mapM f = .ok r) ↔ ∀ a ∈ l, ∃ b, f a = .ok b := by
  intro l
  induction l with
  | nil =>
    constructor
    · intro _ a ha
      simp at ha
    · intro _
      exact ⟨[], rfl⟩
  | cons a l ih =>
    constructor
    · rintro ⟨r, hr⟩
      rw [List.mapM_cons] at hr
      cases hfa : f a with
      | error e =>
        rw [hfa] at hr
        simp [Bind.bind, Except.bind] at hr
      | ok b =>
        rw [hfa] at hr
        cases hml : l.mapM f with
        | error e =>
          rw [hml] at hr
          simp [Bind.bind, Except.bind] at hr
        | ok rs =>
          intro x hx
          rcases List.mem_cons.mp hx with rfl | hx'
          · exact ⟨b, hfa⟩
          · exact (ih.mp ⟨rs, hml⟩) x hx'
    · intro hall
      obtain ⟨b, hb⟩ := hall a (by simp)
      obtain ⟨rs, hrs⟩ := ih.mpr fun x hx => hall x (by simp [hx])
      refine ⟨b :: rs, ?_⟩
      rw [List.mapM_cons, hb, hrs]
      rfl

theorem mapM_except_ok_map {α β γ : Type} (f : α → Except String β) (g : β → γ)
    (h : α → γ) (hfg : ∀ a b, f a = .ok b → g b = h a) :
    ∀ (l : List α) (r : List β), l.mapM f = .ok r → r.map g = l.map h := by
  intro l
  induction l with
  | nil =>
    intro r hr
    have h0 : (List.mapM f [] : Except String (List β)) = Except.ok [] := rfl
    rw [h0] at hr
    simp only [Except.ok.injEq] at hr
    rw [← hr]
    rfl
  | cons a l ih =>
    intro r hr
    rw [List.mapM_cons] at hr
    cases hfa : f a with
    | error e =>
      rw [hfa] at hr
      simp [Bind.bind, Except.bind] at hr
    | ok b =>
      rw [hfa] at hr
      cases hml : l.mapM f with
      | error e =>
        rw [hml] at hr
        simp [Bind.bind, Except.bind] at hr
      | ok rs =>
        rw [hml] at hr
        simp only [Bind.bind, Except.bind, pure, Except.pure, Except.ok.injEq] at hr
        rw [← hr]
        simp [hfg a b hfa, ih rs hml]

theorem mapM_except_ok_length {α β : Type} (f : α → Except String β)
    (l : List α) (r : List β) (hr : l.mapM f = .ok r) : r.length = l.length := by
  have := mapM_except_ok_map f (fun _ => ()) (fun _ => ()) (fun _ _ _ => rfl) l r hr
  have hlen := congrArg List.length this
  simpa using hlen

/-- A successful per-file run gives the file's stem as the slug, whatever
slug the front matter carried. -/
theorem processFile_slug {render : String → String} {decode : String → Option Yaml}
    {env : TypeEnv} {is_article : Bool} {f : FileEntry} {r : FrontMatter × String}
    (h : processFile render decode env is_article f = .ok r) : r.1.slug = f.stem := by
  rw [processFile] at h
  split at h
  · exact absurd h (by simp)
  · cases hx : extract_frontmatter decode f.content with
    | none => rw [hx] at h; exact absurd h (by simp)
    | some fmmd =>
      obtain ⟨fm0, md⟩ := fmmd
      rw [hx] at h
      cases hs : generate_svelte_component ⟨f.stem, fm0.title, fm0.authors, fm0.date, fm0.tags⟩
          (markdown_to_html render md) is_article with
      | none => simp only [hs] at h; exact absurd h (by simp)
      | some sv =>
        simp only [hs] at h
        split at h
        · exact absurd h (by simp)
        · split at h
          · exact absurd h (by simp)
          · simp only [Except.ok.injEq] at h
            rw [← h]

/-! ## Claim C2: exit behavior -/

/-- C2 counterexample: a run in which writing the articles manifest data
file fails does NOT terminate abnormally — `main` logs
`Error generating data` to stderr and completes normally. -/
theorem C2_manifest_failure_not_fatal_counterexample :
    envManifestFail.articles.manifestOk = false ∧
    runMain envManifestFail = RunOutcome.completed ["Error generating data"] :=
  ⟨rfl, rfl⟩

/-- C2 (amended): the run terminates abnormally exactly when some
per-file step fails — reading a `.md` file, extracting or decoding its
front matter, parsing its date, creating its output directory, or
writing its page. Failures writing the manifest data file (and the image
directory/copy steps) are logged and the run still completes normally. -/
theorem C2_exit_behavior_amended :
    ∀ env : Env,
      ((∃ logs, runMain env = RunOutcome.completed logs) ↔
        ((∀ f ∈ mdFiles env.articles,
            ∃ r, processFile env.render env.decode env.articles true f = .ok r) ∧
         (∀ f ∈ mdFiles env.projects,
            ∃ r, processFile env.render env.decode env.projects false f = .ok r))) ∧
      (env.articles.manifestOk = false →
        ∀ logs, runMain env = RunOutcome.completed logs →
          "Error generating data" ∈ logs) := by
  intro env
  have hart := mapM_except_ok_iff
    (processFile env.render env.decode env.articles true) (mdFiles env.articles)
  have hproj := mapM_except_ok_iff
    (processFile env.render env.decode env.projects false) (mdFiles env.projects)
  constructor
  · constructor
    · rintro ⟨logs, hl⟩
      rw [runMain] at hl
      cases hA : runContentType env.render env.decode env.articles true with
      | error e => rw [hA] at hl; exact absurd hl (by simp)
      | ok l1 =>
        cases hP : runContentType env.render env.decode env.projects false with
        | error e => rw [hA, hP] at hl; exact absurd hl (by simp)
        | ok l2 =>
          rw [runContentType] at hA hP
          constructor
          · cases hpc : process_content env.render env.decode env.articles true with
            | error e => rw [hpc] at hA; exact absurd hA (by simp)
            | ok res =>
              refine hart.mp ⟨res, ?_⟩
              rw [← process_content]
              exact hpc
          · cases hpc : process_content env.render env.decode env.projects false with
            | error e => rw [hpc] at hP; exact absurd hP (by simp)
            | ok res =>
              refine hproj.mp ⟨res, ?_⟩
              rw [← process_content]
              exact hpc
    · rintro ⟨ha, hp⟩
      obtain ⟨r1, h1⟩ := hart.mpr ha
      obtain ⟨r2, h2⟩ := hproj.mpr hp
      have h1' : process_content env.render env.decode env.articles true = .ok r1 := h1
      have h2' : process_content env.render env.decode env.projects false = .ok r2 := h2
      cases hA : runContentType env.render env.decode env.articles true with
      | error e =>
        rw [runContentType, h1'] at hA
        exact absurd hA (by simp)
      | ok l1 =>
        cases hP : runContentType env.render env.decode env.projects false with
        | error e =>
          rw [runContentType, h2'] at hP
          exact absurd hP (by simp)
        | ok l2 =>
          exact ⟨l1 ++ l2, by rw [runMain, hA, hP]⟩
  · intro hmf logs hl
    rw [runMain] at hl
    cases hA : runContentType env.render env.decode env.articles true with
    | error e => rw [hA] at hl; exact absurd hl (by simp)
    | ok l1 =>
      cases hP : runContentType env.render env.decode env.projects false with
      | error e => rw [hA, hP] at hl; exact absurd hl (by simp)
      | ok l2 =>
        rw [hA, hP] at hl
        simp only [RunOutcome.completed.injEq] at hl
        rw [← hl]
        rw [runContentType] at hA
        cases hpc : process_content env.render env.decode env.articles true with
        | error e => rw [hpc] at hA; exact absurd hA (by simp)
        | ok res =>
          rw [hpc] at hA
          simp only [Except.ok.injEq] at hA
          rw [← hA, hmf]
          simp

/-- C2 witness: for an environment with no input files and all I/O
succeeding, the amended theorem yields normal completion. -/
theorem C2_exit_behavior_amended_witness :
    ∃ logs, runMain envAllOk = RunOutcome.completed logs :=
  ((C2_exit_behavior_amended envAllOk).1).mpr
    (by constructor <;> (intro f hf; simp [mdFiles, envAllOk, emptyTypeEnv] at hf))

/-! ## Claim C6: manifest entries and slugs -/

/-- C6: a successful `process_content` run yields exactly one record —
hence one manifest entry — per `.md` file, and every record's slug is the
file's stem, regardless of any `slug` the front matter carried
(`process_content` overwrites it before collecting). -/
theorem C6_manifest_entries :
    ∀ (render : String → String) (decode : String → Option Yaml) (env : TypeEnv)
      (is_article : Bool) (res : List (FrontMatter × String)),
      process_content render decode env is_article = .ok res →
      res.length = (mdFiles env).length ∧
      res.map (fun r => r.1.slug) = (mdFiles env).map (fun f => f.stem) ∧
      ((res.map Prod.fst).map manifestEntryText).length = (mdFiles env).length := by
  intro render decode env is_article res h
  have hmap := mapM_except_ok_map (processFile render decode env is_article)
    (fun r => r.1.slug) (fun f => f.stem)
    (fun _ _ hab => processFile_slug hab) (mdFiles env) res h
  have hlen := mapM_except_ok_length _ _ _ h
  refine ⟨hlen, hmap, ?_⟩
  simp [hlen]

/-- C6 witness: with input files `a.md` and `b.md` whose front matter
carries the slug `from-frontmatter`, the run produces exactly two records
with slugs `a` and `b`. -/
theorem C6_manifest_entries_witness :
    ∃ res : List (FrontMatter × String),
      process_content id (fun _ => some sampleYaml) twoFileEnv true = .ok res ∧
      res.length = 2 ∧ res.map (fun r => r.1.slug) = ["a", "b"] := by
  obtain ⟨res, hres⟩ :
      ∃ res, process_content id (fun _ => some sampleYaml) twoFileEnv true = .ok res :=
    ⟨_, rfl⟩
  have h := C6_manifest_entries id (fun _ => some sampleYaml) twoFileEnv true res hres
  refine ⟨res, hres, ?_, ?_⟩
  · rw [h.1]
    rfl
  · rw [h.2.1]
    rfl

/-! ## Claim C10: non-`.md` files are skipped -/

/-- C10: a file whose extension is not `md` is a no-op at the public
interface — adding it to the input directory leaves the whole
`process_content` result (pages and collected records) unchanged — while
every `.md` file contributes exactly one processed record. -/
theorem C10_non_md_noop :
    ∀ (render : String → String) (decode : String → Option Yaml) (env : TypeEnv)
      (is_article : Bool) (f : FileEntry), f.ext ≠ "md" →
      (process_content render decode
          { env with files := env.files ++ [f] } is_article =
        process_content render decode env is_article) ∧
      (∀ res, process_content render decode env is_article = .ok res →
        res.length = (mdFiles env).length) := by
  intro render decode env is_article f hf
  constructor
  · rw [process_content, process_content]
    have hext : (f.ext == "md") = false := by
      simpa using hf
    have hmd : mdFiles { env with files := env.files ++ [f] } = mdFiles env := by
      rw [mdFiles, mdFiles]
      simp [List.filter_append, hext]
    rw [hmd]
    rfl
  · intro res h
    exact mapM_except_ok_length _ _ _ h

/-- C10 witness: adding a `.txt` file to the two-file environment leaves
the processing result unchanged. -/
theorem C10_non_md_noop_witness :
    (⟨"notes", "txt", "x"⟩ : FileEntry).ext ≠ "md" ∧
    process_content id (fun _ => some sampleYaml)
        { twoFileEnv with files := twoFileEnv.files ++ [⟨"notes", "txt", "x"⟩] } true =
      process_content id (fun _ => some sampleYaml) twoFileEnv true :=
  ⟨by decide,
    (C10_non_md_noop id (fun _ => some sampleYaml) twoFileEnv true
      ⟨"notes", "txt", "x"⟩ (by decide)).1⟩

end MdToSvelte
